import Mathlib

/-!
Verification development for the bank-statement-analyzer repository.

The JavaScript source is shallowly embedded in Lean:
JS strings become `String` (manipulated through their `List Char` data so
that every operation is a structural recursion the kernel can evaluate),
JS numbers become `Rat` (with `Option Rat` where `NaN` can arise),
and each regular expression of the source is embedded as a dedicated
deterministic matcher that reproduces the backtracking semantics of the
original pattern (greedy quantifiers try longest first, lazy quantifiers
shortest first; all quantified atoms in the source are single-character
classes, so two small combinators cover every pattern).

Namespaces: `App` holds the front-end pipeline (column mapping,
normalization, classification, summary), `Server` holds server.js
(import endpoint, summary endpoint, Mastercard PDF parser), `Migrate`
holds the migration script's counterparty extractor.
-/

set_option maxRecDepth 20000
set_option linter.unusedVariables false

/-! ## Character classes and basic string helpers -/

/-- JS whitespace for `\s` and `trim()`: space, tab, LF, VT, FF, CR, NBSP. -/
def isJsSpace (c : Char) : Bool :=
  c = ' ' || c = '\t' || c = '\n' || c = Char.ofNat 11 || c = Char.ofNat 12 ||
  c = '\r' || c = Char.ofNat 160

/-- The `.` regex class (no `s` flag): any char except line terminators. -/
def dotChar (c : Char) : Bool :=
  c ≠ '\n' && c ≠ '\r' && c.val ≠ 0x2028 && c.val ≠ 0x2029

/-- The `\w` regex class: ASCII letters, digits, underscore. -/
def isWordChar (c : Char) : Bool :=
  c.isAlpha || c.isDigit || c = '_'

/-- Case-insensitive character comparison (ASCII case folding). -/
def lowEq (a b : Char) : Bool :=
  a.toLower == b.toLower

/-- Does the list start with the given pattern (case-sensitive)? -/
def charsStartWith : List Char → List Char → Bool
  | _, [] => true
  | [], _ :: _ => false
  | a :: as, b :: bs => a == b && charsStartWith as bs

/-- Does the list start with the given pattern (case-insensitive)? -/
def ciStartsWith : List Char → List Char → Bool
  | _, [] => true
  | [], _ :: _ => false
  | a :: as, b :: bs => lowEq a b && ciStartsWith as bs

/-- Substring occurrence (JS `String.prototype.includes`). -/
def charsContain (pat : List Char) : List Char → Bool
  | [] => charsStartWith [] pat
  | c :: cs => charsStartWith (c :: cs) pat || charsContain pat cs

/-- `s.includes(pat)` on strings. -/
def containsSub (s pat : String) : Bool :=
  charsContain pat.data s.data

/-- Drop a case-insensitive literal from the front; `none` when absent. -/
def ciStripLead : List Char → List Char → Option (List Char)
  | l, [] => some l
  | [], _ :: _ => none
  | a :: as, b :: bs => if lowEq a b then ciStripLead as bs else none

/-- Case-insensitive suffix test (for `/...$/i` literal-suffix patterns). -/
def ciEndsWith (l pat : List Char) : Bool :=
  ciStartsWith l.reverse pat.reverse

/-- JS `trim()`: strip leading and trailing whitespace. -/
def jsTrimChars (l : List Char) : List Char :=
  ((l.dropWhile isJsSpace).reverse.dropWhile isJsSpace).reverse

/-- JS `trim()` on strings. -/
def jsTrim (s : String) : String :=
  ⟨jsTrimChars s.data⟩

/-- JS `toLowerCase()` (ASCII letters; the source only compares ASCII). -/
def toLowerStr (s : String) : String :=
  ⟨s.data.map Char.toLower⟩

/-- JS `toUpperCase()` (ASCII letters). -/
def toUpperStr (s : String) : String :=
  ⟨s.data.map Char.toUpper⟩

/-! ## Regex backtracking combinators

Every quantifier appearing in the source's regexes ranges over a
single-character class, so greedy and lazy matching reduce to trying
longer (resp. shorter) runs of the class first. -/

/-- `\s+` followed by a continuation, with greedy backtracking: the
continuation is tried on the suffix after the longest space run first,
then after successively shorter (but nonempty) runs. -/
def spacesPlusThen (k : List Char → Option α) : List Char → Option α
  | [] => none
  | c :: cs =>
    if isJsSpace c then
      match spacesPlusThen k cs with
      | some a => some a
      | none => k cs
    else none

/-- A lazy one-or-more class quantifier `(cls+?)` followed by a
continuation: returns the shortest nonempty run of `cls`-characters whose
suffix satisfies the continuation, together with the continuation value. -/
def lazyClassPlus (cls : Char → Bool) (k : List Char → Option α) :
    List Char → Option (List Char × α)
  | [] => none
  | c :: cs =>
    if cls c then
      match k cs with
      | some a => some ([c], a)
      | none =>
        match lazyClassPlus cls k cs with
        | some (p, a) => some (c :: p, a)
        | none => none
    else none

/-- Unanchored regex search: try the attempt at every suffix, leftmost
match first (JS `match` without `^`). -/
def scanAll (attempt : List Char → Option α) : List Char → Option α
  | [] => attempt []
  | c :: cs =>
    match attempt (c :: cs) with
    | some a => some a
    | none => scanAll attempt cs

/-! ## JS number parsing -/

/-- Digits to a natural number (most significant first). -/
def digitsToNat (l : List Char) : Nat :=
  l.foldl (fun n c => n * 10 + (c.toNat - '0'.toNat)) 0

/-- JS `parseFloat` on a string containing no exponent part: optional
sign, digits, optional `.` and fraction digits; parsing stops at the
first unusable character; `none` models `NaN` (no digit found).
The decimal value is assembled with `mkRat` so the kernel can evaluate it. -/
def jsParseFloat (s : String) : Option Rat :=
  let l := s.data.dropWhile isJsSpace
  let (sgn, l1) : Int × List Char :=
    match l with
    | '-' :: r => (-1, r)
    | '+' :: r => (1, r)
    | r => (1, r)
  let intDigits := l1.takeWhile Char.isDigit
  let l2 := l1.drop intDigits.length
  let fracDigits : List Char :=
    match l2 with
    | '.' :: r => r.takeWhile Char.isDigit
    | _ => []
  if intDigits = [] && fracDigits = [] then none
  else
    some (mkRat
      (sgn * (digitsToNat intDigits * 10 ^ fracDigits.length + digitsToNat fracDigits))
      (10 ^ fracDigits.length))

/-! ## Embedded regular expressions shared across components -/

/-- `/^MASTERCARD\s+\d+/i`: case-insensitive literal, one or more spaces,
then at least one digit (prefix match, rest of the string unconstrained). -/
def matchesMastercard (s : String) : Bool :=
  match ciStripLead s.data "MASTERCARD".data with
  | none => false
  | some rest =>
    match rest with
    | c :: cs =>
      isJsSpace c &&
        (match cs.dropWhile isJsSpace with
         | d :: _ => d.isDigit
         | [] => false)
    | [] => false

/-- Tail of `/^\d{4}\s+(.+?)\s+\w+\s+-$/` after the lazy group:
one or more spaces, a word-character run, spaces, a final `-`. -/
def terminalTailOk (r : List Char) : Bool :=
  let sp := r.takeWhile isJsSpace
  let r1 := r.drop sp.length
  let w := r1.takeWhile isWordChar
  let r2 := r1.drop w.length
  let sp2 := r2.takeWhile isJsSpace
  !sp.isEmpty && !w.isEmpty && !sp2.isEmpty && r2.drop sp2.length == ['-']

/-- `/^\d{4}\s+(.+?)\s+\w+\s+-$/` (terminal-receipt format); returns the
captured group. -/
def terminalMatch (s : String) : Option String :=
  let l := s.data
  let four := l.take 4
  if four.length == 4 && four.all Char.isDigit then
    spacesPlusThen (fun rest =>
      (lazyClassPlus dotChar
          (fun suf => if terminalTailOk suf then some () else none) rest).map
        (fun pa => (⟨pa.1⟩ : String)))
      (l.drop 4)
  else none

/-- Character class `[A-Za-z0-9\s&'-]` of the colon-reference pattern. -/
def colonCls (c : Char) : Bool :=
  c.isAlpha || c.isDigit || isJsSpace c || c = '&' || c = Char.ofNat 39 || c = '-'

/-- `/^([A-Za-z][A-Za-z0-9\s&'-]+):\s*\d+/` (name-colon-reference format);
returns the captured group. -/
def colonMatch (s : String) : Option String :=
  match s.data with
  | c :: cs =>
    if c.isAlpha then
      let run := cs.takeWhile colonCls
      let rest := cs.drop run.length
      if !run.isEmpty then
        match rest with
        | ':' :: r2 =>
          (match r2.dropWhile isJsSpace with
           | d :: _ => if d.isDigit then some (⟨c :: run⟩ : String) else none
           | [] => none)
        | _ => none
      else none
    else none
  | [] => none

/-- `[A-Z0-9]` under the `i` flag: any ASCII letter or digit. -/
def isCiAlnum (c : Char) : Bool :=
  c.isAlpha || c.isDigit

/-- Case-insensitive whole-list comparison. -/
def ciExact : List Char → List Char → Bool
  | [], [] => true
  | a :: as, b :: bs => lowEq a b && ciExact as bs
  | _, _ => false

/-- Tail of `/^[A-Z0-9]{7}\s+(.+?)(?:\s+(?:BE|NL|DE|FR))?$/i` after the
lazy group: either the end of the string, or spaces and a country code. -/
def codeTailOk (r : List Char) : Bool :=
  r.isEmpty ||
    (let sp := r.takeWhile isJsSpace
     let r1 := r.drop sp.length
     !sp.isEmpty && (ciExact r1 "BE".data || ciExact r1 "NL".data ||
       ciExact r1 "DE".data || ciExact r1 "FR".data))

/-- `/^[A-Z0-9]{7}\s+(.+?)(?:\s+(?:BE|NL|DE|FR))?$/i` (code-plus-name
format); returns the captured group. -/
def codeMatch (s : String) : Option String :=
  let l := s.data
  let seven := l.take 7
  if seven.length == 7 && seven.all isCiAlnum then
    spacesPlusThen (fun rest =>
      (lazyClassPlus dotChar
          (fun suf => if codeTailOk suf then some () else none) rest).map
        (fun pa => (⟨pa.1⟩ : String)))
      (l.drop 7)
  else none

/-- `name.replace(/\s+B\.?V\.?$/i, '')`: strip a trailing "B.V."-style
company suffix, or return the string unchanged. -/
def stripBVSuffix (s : String) : String :=
  let r := s.data.reverse
  let r1 := match r with
    | '.' :: t => t
    | t => t
  match r1 with
  | v :: t1 =>
    if lowEq v 'V' then
      let t2 := match t1 with
        | '.' :: u => u
        | u => u
      match t2 with
      | b :: t3 =>
        if lowEq b 'B' then
          let sp := t3.takeWhile isJsSpace
          if !sp.isEmpty then ⟨(t3.drop sp.length).reverse⟩ else s
        else s
      | [] => s
    else s
  | [] => s

/-- `name.replace(/\s+-\s*balans-?$/i, '')`: strip a trailing
"- balans" marker, or return the string unchanged. -/
def stripBalansSuffix (s : String) : String :=
  let r := s.data.reverse
  let r1 := match r with
    | '-' :: t => t
    | t => t
  if ciStartsWith r1 "snalab".data then
    let t1 := r1.drop 6
    let sp := t1.takeWhile isJsSpace
    let t2 := t1.drop sp.length
    match t2 with
    | '-' :: t3 =>
      let sp2 := t3.takeWhile isJsSpace
      if !sp2.isEmpty then ⟨(t3.drop sp2.length).reverse⟩ else s
    | _ => s
  else s

/-- `/^H\s+M\b/i`: when it matches, return the remainder after the
matched "H M" prefix (the `\b` is the required word boundary after `M`). -/
def hmMatch (l : List Char) : Option (List Char) :=
  match l with
  | h :: t =>
    if lowEq h 'H' then
      let sp := t.takeWhile isJsSpace
      let t1 := t.drop sp.length
      if !sp.isEmpty then
        match t1 with
        | m :: t2 =>
          if lowEq m 'M' then
            match t2 with
            | [] => some []
            | c :: _ => if isWordChar c then none else some t2
          else none
        | [] => none
      else none
    else none
  | [] => none

/-- The common cleanup chain of the code-plus-name extractor rule:
trim the capture, strip "B.V."/"- balans" suffixes, rewrite a leading
"H M" to "H&M". -/
def cleanCodeName (captured : String) : String :=
  let name := jsTrim captured
  let name := stripBVSuffix name
  let name := stripBalansSuffix name
  match hmMatch name.data with
  | some rest => ⟨"H&M".data ++ rest⟩
  | none => name

/-- `location.charAt(0).toUpperCase() + location.slice(1).toLowerCase()`. -/
def capFirstLowerRest (l : List Char) : List Char :=
  match l with
  | [] => []
  | c :: cs => c.toUpper :: cs.map Char.toLower

/-- `/^ACUPUNCTUUR[A-Z]/i` test. -/
def acupunctuurTest (l : List Char) : Bool :=
  ciStartsWith l "ACUPUNCTUUR".data &&
    (match l.drop 11 with
     | c :: _ => c.isAlpha
     | [] => false)

/-- One attempt of `/Order[:\s]+\d+/i` at a fixed position. -/
def orderAt (l : List Char) : Option Unit :=
  match ciStripLead l "Order".data with
  | none => none
  | some r =>
    let run := r.takeWhile (fun c => c = ':' || isJsSpace c)
    if run.isEmpty then none
    else
      match r.drop run.length with
      | d :: _ => if d.isDigit then some () else none
      | [] => none

/-- `/Order[:\s]+\d+/i` unanchored search. -/
def orderTest (s : String) : Bool :=
  (scanAll orderAt s.data).isSome

/-- Case-insensitive substring search (for `/Checkout id:/i`). -/
def ciContains (s pat : String) : Bool :=
  (scanAll (fun l => if ciStartsWith l pat.data then some () else none) s.data).isSome

/-- `/^\d+$/`. -/
def allDigits (l : List Char) : Bool :=
  !l.isEmpty && l.all Char.isDigit

/-- `/^[A-Z0-9]{7}\s+[a-zA-Z0-9]{20,}$/` (random hash/code pattern;
no `i` flag, so the leading class is upper-case only). -/
def hashTest (l : List Char) : Bool :=
  let seven := l.take 7
  seven.length == 7 && seven.all (fun c => c.isUpper || c.isDigit) &&
    (let r := l.drop 7
     let sp := r.takeWhile isJsSpace
     let r1 := r.drop sp.length
     !sp.isEmpty && decide (r1.length ≥ 20) && r1.all isCiAlnum)

/-! ## Regexes of the details-based extraction rules -/

/-- One attempt of
`/BETALING MET DEBETKAART NUMMER \d{4} \d{2}XX XXXX \d{4}\s+(.+)/i`
at a fixed position; returns the captured narrative text. -/
def debitCardAt (l : List Char) : Option (List Char) :=
  match ciStripLead l "BETALING MET DEBETKAART NUMMER ".data with
  | none => none
  | some r =>
    match r with
    | a :: b :: c :: d :: ' ' :: e :: f :: x1 :: x2 :: ' ' :: x3 :: x4 :: x5 :: x6 ::
        ' ' :: g :: h :: i :: j :: rest =>
      if a.isDigit && b.isDigit && c.isDigit && d.isDigit && e.isDigit && f.isDigit &&
         lowEq x1 'X' && lowEq x2 'X' && lowEq x3 'X' && lowEq x4 'X' &&
         lowEq x5 'X' && lowEq x6 'X' &&
         g.isDigit && h.isDigit && i.isDigit && j.isDigit then
        spacesPlusThen (fun r2 =>
          let cap := r2.takeWhile dotChar
          if cap.isEmpty then none else some cap) rest
      else none
    | _ => none

/-- `rest.replace(/\s+\d{2}\/\d{2}\/\d{4}\s*$/, '')`: strip a trailing
`DD/MM/YYYY` date, or return the string unchanged. -/
def stripTrailingDateSuffix (s : String) : String :=
  let r := s.data.reverse
  let r0 := r.dropWhile isJsSpace
  match r0 with
  | y4 :: y3 :: y2 :: y1 :: '/' :: m2 :: m1 :: '/' :: d2 :: d1 :: rest =>
    if y1.isDigit && y2.isDigit && y3.isDigit && y4.isDigit && m1.isDigit &&
       m2.isDigit && d1.isDigit && d2.isDigit then
      let sp := rest.takeWhile isJsSpace
      if !sp.isEmpty then ⟨(rest.drop sp.length).reverse⟩ else s
    else s
  | _ => s

/-- `rest.replace(/\s+\d{4}\s+[A-Z]+\s*$/i, '')`: strip a trailing
postal code followed by a city name, or return the string unchanged. -/
def stripPostalCitySuffix (s : String) : String :=
  let r := s.data.reverse
  let r0 := r.dropWhile isJsSpace
  let city := r0.takeWhile Char.isAlpha
  if city.isEmpty then s
  else
    let r1 := r0.drop city.length
    let sp := r1.takeWhile isJsSpace
    if sp.isEmpty then s
    else
      match r1.drop sp.length with
      | a :: b :: c :: d :: rest =>
        if a.isDigit && b.isDigit && c.isDigit && d.isDigit then
          let sp2 := rest.takeWhile isJsSpace
          if !sp2.isEmpty then ⟨(rest.drop sp2.length).reverse⟩ else s
        else s
      | _ => s

/-- `rest.replace(/\s+[A-Z]+\s+\d{4}\s*$/i, '')`: strip a trailing
(possibly truncated) city name followed by a postal code. -/
def stripCityPostalSuffix (s : String) : String :=
  let r := s.data.reverse
  let r0 := r.dropWhile isJsSpace
  match r0 with
  | a :: b :: c :: d :: rest =>
    if a.isDigit && b.isDigit && c.isDigit && d.isDigit then
      let sp := rest.takeWhile isJsSpace
      if sp.isEmpty then s
      else
        let r1 := rest.drop sp.length
        let city := r1.takeWhile Char.isAlpha
        if city.isEmpty then s
        else
          let r2 := r1.drop city.length
          let sp2 := r2.takeWhile isJsSpace
          if !sp2.isEmpty then ⟨(r2.drop sp2.length).reverse⟩ else s
    else s
  | _ => s

/-- `rest.replace(/^\d{4}\s+/, '')`: strip a leading 4-digit store code. -/
def stripLeadingStoreCode (s : String) : String :=
  match s.data with
  | a :: b :: c :: d :: rest =>
    if a.isDigit && b.isDigit && c.isDigit && d.isDigit then
      let sp := rest.takeWhile isJsSpace
      if !sp.isEmpty then ⟨rest.drop sp.length⟩ else s
    else s
  | _ => s

/-- One attempt of `/GELDOPNEMING[^A-Z]*([A-Z][A-Z\s]+?)\s+\d{4}/i`
at a fixed position; returns the captured ATM location. -/
def atmAt (l : List Char) : Option String :=
  match ciStripLead l "GELDOPNEMING".data with
  | none => none
  | some r =>
    match r.dropWhile (fun c => !c.isAlpha) with
    | c0 :: cs =>
      (lazyClassPlus (fun c => c.isAlpha || isJsSpace c)
        (fun suf =>
          let sp := suf.takeWhile isJsSpace
          if sp.isEmpty then none
          else
            let four := (suf.drop sp.length).take 4
            if four.length == 4 && four.all Char.isDigit then some () else none)
        cs).map (fun pa => (⟨c0 :: pa.1⟩ : String))
    | [] => none

/-- Backtracking loop for `\s*([^,\n]+)`: consume as many spaces as
possible while still leaving a nonempty capture. -/
def domCapLoop (r2 : List Char) : Nat → Option (List Char)
  | 0 =>
    let cap := r2.takeWhile (fun c => c ≠ ',' && c ≠ '\n')
    if cap.isEmpty then none else some cap
  | j + 1 =>
    let cap := (r2.drop (j + 1)).takeWhile (fun c => c ≠ ',' && c ≠ '\n')
    if !cap.isEmpty then some cap else domCapLoop r2 j

/-- One attempt of `/DOMICILIERING[^:]*:\s*([^,\n]+)/i` at a fixed
position; returns the captured creditor text. -/
def domAt (l : List Char) : Option String :=
  match ciStripLead l "DOMICILIERING".data with
  | none => none
  | some r =>
    match r.dropWhile (fun c => c ≠ ':') with
    | ':' :: r2 =>
      ((domCapLoop r2 (r2.takeWhile isJsSpace).length).map (fun cap => (⟨cap⟩ : String)))
    | _ => none

/-- Character class `[A-Za-z\s&\-'\.]` of the NAAM pattern. -/
def naamCls (c : Char) : Bool :=
  c.isAlpha || isJsSpace c || c = '&' || c = '-' || c = Char.ofNat 39 || c = '.'

/-- Tail `(?:\s+[A-Z]{2}\d|\s+IBAN|\s+BIC|\s*$)` of the NAAM pattern. -/
def naamTailOk (r : List Char) : Bool :=
  (let sp := r.takeWhile isJsSpace
   let r1 := r.drop sp.length
   !sp.isEmpty &&
     ((match r1 with
       | a :: b :: d :: _ => a.isAlpha && b.isAlpha && d.isDigit
       | _ => false) ||
      ciStartsWith r1 "IBAN".data || ciStartsWith r1 "BIC".data)) ||
  (r.dropWhile isJsSpace).isEmpty

/-- One attempt of
`/NAAM[:\s]+([A-Za-z][A-Za-z\s&\-'\.]+?)(?:\s+[A-Z]{2}\d|\s+IBAN|\s+BIC|\s*$)/i`
at a fixed position; returns the captured name. -/
def naamAt (l : List Char) : Option String :=
  match ciStripLead l "NAAM".data with
  | none => none
  | some r =>
    let run := r.takeWhile (fun c => c = ':' || isJsSpace c)
    if run.isEmpty then none
    else
      match r.drop run.length with
      | c0 :: cs =>
        if c0.isAlpha then
          (lazyClassPlus naamCls
            (fun suf => if naamTailOk suf then some () else none) cs).map
            (fun pa => (⟨c0 :: pa.1⟩ : String))
        else none
      | [] => none

/-! ## Word splitting for title-casing -/

/-- JS `split(' ')` (single-space separator; consecutive spaces give
empty words, as in JS). -/
def splitOnSpace : List Char → List (List Char)
  | [] => [[]]
  | c :: cs =>
    let r := splitOnSpace cs
    if c = ' ' then [] :: r
    else
      match r with
      | w :: ws => (c :: w) :: ws
      | [] => [[c]]

/-- JS `join(' ')`. -/
def joinWithSpace : List (List Char) → List Char
  | [] => []
  | [w] => w
  | w :: ws => w ++ ' ' :: joinWithSpace ws

/-- `name.split(' ').map(w => w.charAt(0).toUpperCase() + w.slice(1).toLowerCase()).join(' ')`. -/
def titleCaseWords (s : String) : String :=
  ⟨joinWithSpace ((splitOnSpace s.data).map capFirstLowerRest)⟩

namespace App

/-- The abbreviation-expansion table of `expandMerchantName`, in source
(insertion) order. -/
def merchantAbbreviations : List (String × String) :=
  [("AD DELH", "AD Delhaize"), ("DELH", "Delhaize"), ("COLR", "Colruyt"),
   ("CARF", "Carrefour"), ("CARREF", "Carrefour"), ("LIDL", "Lidl"),
   ("ALDI", "Aldi"), ("AH", "Albert Heijn"), ("ALBERT H", "Albert Heijn"),
   ("KRUIDV", "Kruidvat"), ("HEMA", "HEMA"), ("ACTION", "Action"),
   ("ZEEMAN", "Zeeman"), ("PRIMARK", "Primark"), ("C&A", "C&A"),
   ("H&M", "H&M"), ("MEDIAMARKT", "MediaMarkt"), ("MEDIAMARK", "MediaMarkt"),
   ("FNAC", "Fnac"), ("BRICO", "Brico"), ("HUBO", "Hubo"), ("GAMMA", "Gamma"),
   ("DREAMLAND", "Dreamland"), ("STANDAARD", "Standaard Boekhandel")]

/-- `expandMerchantName`: expand a known merchant abbreviation (first
table entry whose key is a prefix of the upper-cased name), else
title-case the name. -/
def expandMerchantName (name : String) : String :=
  let upperName := jsTrim (toUpperStr name)
  match merchantAbbreviations.find? (fun kv => charsStartWith upperName.data kv.1.data) with
  | some kv => kv.2
  | none => titleCaseWords name

/-- The details-string branch of the front-end `extractCounterparty`
(debit-card narrative, mortgage repayment, ATM withdrawal, direct debit,
NAAM-labelled transfer), applied to the trimmed details string. -/
def detailsBranch (detailsStr : String) : Option String :=
  let l := detailsStr.data
  let debit : Option String :=
    match scanAll debitCardAt l with
    | some captured =>
      let rest := jsTrim ⟨captured⟩
      let rest := jsTrim (stripTrailingDateSuffix rest)
      let rest := jsTrim (stripPostalCitySuffix rest)
      let rest := jsTrim (stripCityPostalSuffix rest)
      let rest := jsTrim (stripLeadingStoreCode rest)
      if rest ≠ "" && !allDigits rest.data then some (expandMerchantName rest) else none
    | none => none
  match debit with
  | some x => some x
  | none =>
    if ciStartsWith l "TERUGBETALING WOONKREDIET".data then some "Woonkrediet (Hypotheek)"
    else
      match scanAll atmAt l with
      | some g => some ("ATM " ++ jsTrim g)
      | none =>
        match scanAll domAt l with
        | some g => some (jsTrim g)
        | none =>
          match scanAll naamAt l with
          | some g => some (jsTrim g)
          | none => none

/-- The description-string branch shared by the extractors: terminal
receipts, name-colon references, code-plus-name, ACUPUNCTUUR, known
brands, Mastercard payments. -/
def descBranch (desc : String) : Option String :=
  match terminalMatch desc with
  | some g => some (jsTrim g)
  | none =>
    match colonMatch desc with
    | some g => some (jsTrim g)
    | none =>
      match codeMatch desc with
      | some g => some (cleanCodeName g)
      | none =>
        if acupunctuurTest desc.data then
          some ("Acupunctuur " ++ (⟨capFirstLowerRest (desc.data.drop 11)⟩ : String))
        else if ciEndsWith desc.data "Klarna".data then some "Klarna"
        else if ciEndsWith desc.data "SHEIN".data then some "Shein"
        else if matchesMastercard desc then some "Mastercard Payment"
        else none

/-- Front-end `extractCounterparty(description, details)`: try the
details-based rules first, then the description-based rules; `none`
models the JS `null` (manual review). -/
def extractCounterparty (description details : String) : Option String :=
  match (if details ≠ "" then detailsBranch (jsTrim details) else none) with
  | some g => some g
  | none =>
    if description = "" then none
    else descBranch (jsTrim description)

/-- `isCreditCardPayment(description, type)` (identical in the front end
and in the migration script): type equals the credit-card bill-payment
label, or the description matches `/^MASTERCARD\s+\d+/i`. -/
def isCreditCardPayment (description : String) (type : String) : Bool :=
  if type == "Kredietkaartbetaling" then true
  else if description ≠ "" && matchesMastercard description then true
  else false

/-- Front-end `categorizeTransaction(description, amount)`: income
override first, then case-insensitive keyword matching in a fixed
category order, defaulting to "Other". -/
def categorizeTransaction (description : String) (amount : Rat) : String :=
  let desc := toLowerStr description
  if 0 < amount then "Income"
  else if containsSub desc "grocery" || containsSub desc "supermarket" ||
      containsSub desc "food" || containsSub desc "delhaize" ||
      containsSub desc "colruyt" || containsSub desc "carrefour" ||
      containsSub desc "aldi" || containsSub desc "lidl" then "Groceries"
  else if containsSub desc "restaurant" || containsSub desc "cafe" ||
      containsSub desc "coffee" || containsSub desc "resto" ||
      containsSub desc "horeca" || containsSub desc "pizza" ||
      containsSub desc "takeaway" then "Dining"
  else if containsSub desc "gas" || containsSub desc "fuel" ||
      containsSub desc "shell" || containsSub desc "benzine" ||
      containsSub desc "nmbs" || containsSub desc "de lijn" ||
      containsSub desc "total" || containsSub desc "q8" then "Transportation"
  else if containsSub desc "rent" || containsSub desc "mortgage" ||
      containsSub desc "huur" then "Housing"
  else if containsSub desc "electric" || containsSub desc "water" ||
      containsSub desc "internet" || containsSub desc "phone" ||
      containsSub desc "proximus" || containsSub desc "telenet" ||
      containsSub desc "engie" || containsSub desc "luminus" then "Utilities"
  else if containsSub desc "amazon" || containsSub desc "bol.com" ||
      containsSub desc "coolblue" || containsSub desc "zalando" ||
      containsSub desc "h&m" then "Shopping"
  else if containsSub desc "netflix" || containsSub desc "spotify" ||
      containsSub desc "streamz" || containsSub desc "disney" ||
      containsSub desc "cinema" then "Entertainment"
  else if containsSub desc "gym" || containsSub desc "fitness" ||
      containsSub desc "basic-fit" || containsSub desc "apotheek" ||
      containsSub desc "pharmacy" then "Health & Fitness"
  else "Other"

end App

namespace Migrate

/-- The migration script's `extractCounterparty(description, type)`:
the description-based rules plus explicit unresolvable classifications
(order references, payment processors, placeholders, bare references). -/
def extractCounterparty (description : String) (type : String) : Option String :=
  if description = "" then none
  else
    let desc := jsTrim description
    match terminalMatch desc with
    | some g => some (jsTrim g)
    | none =>
      match colonMatch desc with
      | some g => some (jsTrim g)
      | none =>
        match codeMatch desc with
        | some g => some (cleanCodeName g)
        | none =>
          if acupunctuurTest desc.data then
            some ("Acupunctuur " ++ (⟨capFirstLowerRest (desc.data.drop 11)⟩ : String))
          else if ciEndsWith desc.data "Klarna".data then some "Klarna"
          else if ciEndsWith desc.data "SHEIN".data then some "Shein"
          else if orderTest desc then none
          else if ciEndsWith desc.data "by Multisafepay".data then none
          else if matchesMastercard desc then some "Mastercard Payment"
          else if ciContains desc "Checkout id:" then none
          else if desc == "Payment Description" then none
          else if allDigits desc.data then none
          else if hashTest desc.data then none
          else none

end Migrate

/-! ## Amount-string cleanup -/

/-- JS `replace(',', '.')`: first occurrence only. -/
def replaceFirstComma : List Char → List Char
  | [] => []
  | c :: cs => if c = ',' then '.' :: cs else c :: replaceFirstComma cs

/-- `amount.replace(',', '.').replace(/[^\d.-]/g, '')` (CSV amounts). -/
def cleanAmountStr (s : String) : String :=
  ⟨(replaceFirstComma s.data).filter (fun c => c.isDigit || c = '.' || c = '-')⟩

/-- `amountStr.replace(/\./g, '').replace(',', '.')` (PDF amounts in
European format). -/
def mcAmountClean (s : String) : String :=
  ⟨replaceFirstComma (s.data.filter (fun c => c ≠ '.'))⟩

namespace App

/-- A CSV cell as seen after Papa-parse dynamic typing: a string, a
number, or absent (`undefined`/`null`). -/
inductive Cell where
  | str (s : String)
  | num (q : Rat)
  | empty
deriving DecidableEq

/-- A raw CSV row, already looked up through the confirmed column
mapping: each canonical slot holds the cell of its mapped source column
(`Cell.empty` / `none` when the column is unmapped or the cell missing).
Textual slots are modelled as optional strings (`String(x ?? '')` /
`x || ''` in the source). -/
structure RawRow where
  date : Option String
  amount : Cell
  description : Option String
  details : Option String
  counterparty : Option String
  type : Option String
  status : Option String
deriving DecidableEq

/-- The canonical transaction record built by `confirmMapping` for one
row (the transient display `id` is omitted). -/
structure CsvTxn where
  date : String
  description : String
  details : Option String
  amount : Rat
  type : String
  status : String
  category : String
  counterparty : String
  isCreditCardPayment : Bool
  source : String
deriving DecidableEq

/-- The amount value before the NaN-coercion: parse a textual cell
(after cleanup), keep a numeric cell, `none` models `NaN`
(also the `undefined` of a missing cell, since `isNaN(undefined)`). -/
def rawAmountOpt : Cell → Option Rat
  | .str s => jsParseFloat (cleanAmountStr s)
  | .num q => some q
  | .empty => none

/-- The materialized amount: `if (isNaN(amount)) amount = 0`. -/
def materializeAmount (c : Cell) : Rat :=
  (rawAmountOpt c).getD 0

/-- JS `isNaN` on a materialized amount. Materialized amounts are
modelled as `Rat`, which has no NaN value (the coercion in
`materializeAmount` is what guarantees this in the source), so this
test is constantly false. -/
def ratIsNaN (_q : Rat) : Bool :=
  false

/-- Materialization of one raw row inside `confirmMapping`. -/
def confirmRow (row : RawRow) : CsvTxn :=
  let description := row.description.getD ""
  let details := row.details.getD ""
  let counterparty0 := jsTrim (row.counterparty.getD "")
  let type := row.type.getD ""
  let counterparty :=
    if counterparty0 = "" then (extractCounterparty description details).getD ""
    else counterparty0
  let primaryDescription := if description = "" then details else description
  let fullDescription :=
    if counterparty ≠ "" then counterparty ++ " - " ++ primaryDescription
    else primaryDescription
  let amount := materializeAmount row.amount
  let creditCardPayment :=
    isCreditCardPayment (if description = "" then details else description) type
  { date := row.date.getD ""
    description := jsTrim fullDescription
    details := if details = "" then none else some details
    amount
    type
    status := row.status.getD ""
    category :=
      if creditCardPayment then "Credit Card Payment"
      else categorizeTransaction fullDescription amount
    counterparty
    isCreditCardPayment := creditCardPayment
    source := "bank_statement" }

/-- The row filter of `confirmMapping`: keep rows with a date, a
non-NaN amount, and no rejected ("geweigerd") status. -/
def keepRow (t : CsvTxn) : Bool :=
  let isRejected := t.status ≠ "" && containsSub (toLowerStr t.status) "geweigerd"
  let hasDate := t.date ≠ "" && jsTrim t.date ≠ ""
  let hasAmount := !ratIsNaN t.amount
  hasDate && hasAmount && !isRejected

/-- `confirmMapping`: materialize every raw row, then discard rejected
and dateless rows. (The final display sort by date is omitted; no
verified property depends on the order.) -/
def confirmMapping (rows : List RawRow) : List CsvTxn :=
  (rows.map confirmRow).filter keepRow

/-- The front-end summary record produced by `calculateSummary`
(category totals as an association list in first-insertion order,
modelling the JS object). -/
structure UiSummary where
  income : Rat
  expenses : Rat
  net : Rat
  categoryTotals : List (String × Rat)
deriving DecidableEq

/-- `categoryTotals[k] = (categoryTotals[k] || 0) + v` on the
association-list model of the JS object. -/
def upsertAdd (k : String) (v : Rat) : List (String × Rat) → List (String × Rat)
  | [] => [(k, v)]
  | (k', v') :: rest =>
    if k' == k then (k', v' + v) :: rest else (k', v') :: upsertAdd k v rest

/-- Sum of the amounts of a transaction list (JS `reduce((s,t) => s + t.amount, 0)`). -/
def sumAmounts (l : List CsvTxn) : Rat :=
  (l.map (fun t => t.amount)).sum

/-- `calculateSummary`: filter out flagged credit-card payments, then
income (sum of positive amounts), expenses (absolute sum of negative
amounts), net, and per-category expense totals. -/
def calculateSummary (txns : List CsvTxn) : UiSummary :=
  let nonCreditCardTxns := txns.filter (fun t => !t.isCreditCardPayment)
  let income := sumAmounts (nonCreditCardTxns.filter (fun t => 0 < t.amount))
  let expenses := |sumAmounts (nonCreditCardTxns.filter (fun t => t.amount < 0))|
  let categoryTotals := nonCreditCardTxns.foldl
    (fun acc t => if t.amount < 0 then upsertAdd t.category |t.amount| acc else acc) []
  { income, expenses, net := income - expenses, categoryTotals }

end App

/-! ## Server-side helpers -/

/-- JS `split(sep)` for a single-character separator. -/
def splitOnChar (sep : Char) : List Char → List (List Char)
  | [] => [[]]
  | c :: cs =>
    let r := splitOnChar sep cs
    if c = sep then [] :: r
    else
      match r with
      | w :: ws => (c :: w) :: ws
      | [] => [[c]]

/-- `split(/\s+\d/)[0]`: the text before the first whitespace run that
is followed by a digit. -/
def beforeSpaceDigit : List Char → List Char
  | [] => []
  | c :: cs =>
    if isJsSpace c &&
        (match cs.dropWhile isJsSpace with
         | d :: _ => d.isDigit
         | [] => false) then []
    else c :: beforeSpaceDigit cs

/-- Does the list consist of a nonempty whitespace run followed exactly
by a country code (tail of `split(/\s+(?:BE|NL|DE|FR|GB|IE|LU)$/)`)? -/
def ccEndTail (l : List Char) : Bool :=
  let sp := l.takeWhile isJsSpace
  let r := l.drop sp.length
  !sp.isEmpty && (r == "BE".data || r == "NL".data || r == "DE".data ||
    r == "FR".data || r == "GB".data || r == "IE".data || r == "LU".data)

/-- `split(/\s+(?:BE|NL|DE|FR|GB|IE|LU)$/)[0]`. -/
def beforeCountryEnd : List Char → List Char
  | [] => []
  | c :: cs =>
    if isJsSpace c && ccEndTail (c :: cs) then [] else c :: beforeCountryEnd cs

/-- `replace(/\s+\d+$/, '')`: strip a trailing digit run and the
whitespace before it, or return the string unchanged. -/
def stripTrailingNumRun (s : String) : String :=
  let r := s.data.reverse
  let ds := r.takeWhile Char.isDigit
  if ds.isEmpty then s
  else
    let r1 := r.drop ds.length
    let sp := r1.takeWhile isJsSpace
    if sp.isEmpty then s else ⟨(r1.drop sp.length).reverse⟩

/-- `/^(\d{2})\/(\d{2})(\d{2})\/(\d{2})(.+)$/` (a PDF transaction line:
the concatenated date pair then the narrative); returns
(day, month, narrative) — groups 1, 2 and 5 as used by the source. -/
def txnLineMatch (s : String) : Option (String × String × String) :=
  match s.data with
  | d1 :: d2 :: '/' :: d3 :: d4 :: d5 :: d6 :: '/' :: d7 :: d8 :: rest =>
    if d1.isDigit && d2.isDigit && d3.isDigit && d4.isDigit && d5.isDigit &&
       d6.isDigit && d7.isDigit && d8.isDigit &&
       !rest.isEmpty && rest.all dotChar then
      some (⟨[d1, d2]⟩, ⟨[d3, d4]⟩, ⟨rest⟩)
    else none
  | _ => none

/-- `/^€\s*([+-]?[\d.,]+)$/` (a PDF amount line); returns the captured
signed amount text. -/
def amountLineMatch (s : String) : Option String :=
  match s.data with
  | '€' :: r =>
    let r1 := r.dropWhile isJsSpace
    let (sgnPart, r2) : List Char × List Char :=
      match r1 with
      | '+' :: t => (['+'], t)
      | '-' :: t => (['-'], t)
      | t => ([], t)
    if !r2.isEmpty && r2.all (fun c => c.isDigit || c = '.' || c = ',') then
      some ⟨sgnPart ++ r2⟩
    else none
  | _ => none

/-- One attempt of `/Van\s+\d{2}\/\d{2}\/(\d{4})\s+tot/` at a fixed
position; returns the captured year. -/
def periodAt (l : List Char) : Option String :=
  if charsStartWith l "Van".data then
    spacesPlusThen (fun r =>
      match r with
      | a :: b :: '/' :: c :: d :: '/' :: y1 :: y2 :: y3 :: y4 :: rest =>
        if a.isDigit && b.isDigit && c.isDigit && d.isDigit &&
           y1.isDigit && y2.isDigit && y3.isDigit && y4.isDigit then
          let sp := rest.takeWhile isJsSpace
          if !sp.isEmpty && charsStartWith (rest.drop sp.length) "tot".data then
            some (⟨[y1, y2, y3, y4]⟩ : String)
          else none
        else none
      | _ => none) (l.drop 3)
  else none

/-- Search the whole PDF text for the statement-period line and return
its year. -/
def findPeriodYear (text : String) : Option String :=
  scanAll periodAt text.data

namespace Server

/-- server.js `categorizeTransaction(description, amount)`: income
override first, then keyword matching, defaulting to "Other". -/
def categorizeTransaction (description : String) (amount : Rat) : String :=
  let desc := toLowerStr description
  if 0 < amount then "Income"
  else if containsSub desc "ikea" || containsSub desc "furniture" then "Shopping"
  else if containsSub desc "ibood" then "Shopping"
  else if containsSub desc "itunes" || containsSub desc "apple" then "Entertainment"
  else if containsSub desc "disney" || containsSub desc "netflix" ||
      containsSub desc "spotify" then "Entertainment"
  else if containsSub desc "airbnb" || containsSub desc "hotel" ||
      containsSub desc "booking" then "Travel"
  else if containsSub desc "ring" && containsSub desc "plan" then "Utilities"
  else if containsSub desc "dpg media" then "Subscriptions"
  else "Other"

/-- The PayPal merchant-override table, in source (insertion) order. -/
def merchantMap : List (String × String) :=
  [("IBOOD", "iBood"), ("ITUNESAPPST AP", "Apple/iTunes"),
   ("AIRBNB", "Airbnb"), ("DISNEYPLUS", "Disney+")]

/-- server.js `extractMastercardCounterparty(description)`: PayPal
merchant extraction with override table, known-brand containment
checks, then a generic country-code/number strip; never null — falls
back to the trimmed description. -/
def extractMastercardCounterparty (description : String) : String :=
  let desc := jsTrim description
  if charsStartWith desc.data "PAYPAL ".data then
    let stripped : List Char := (desc.data.drop 6).dropWhile isJsSpace
    let merchant : String := ⟨beforeSpaceDigit stripped⟩
    match merchantMap.find? (fun kv => containsSub merchant kv.1) with
    | some kv => kv.2
    | none => merchant
  else if containsSub desc "IKEA" then "IKEA"
  else if containsSub desc "DPG Media" then "DPG Media"
  else if containsSub desc "RING STANDARD" then "Ring"
  else
    let p0 : String := ⟨beforeCountryEnd desc.data⟩
    if p0 ≠ "" then jsTrim (stripTrailingNumRun p0)
    else desc

/-- A transaction produced by the Mastercard PDF parser
(`amount : Option Rat` models a JS number where `none` is NaN). -/
structure PdfTxn where
  date : String
  amount : Option Rat
  description : String
  counterparty : String
  type : String
  source : String
  category : String
deriving DecidableEq

/-- The line loop of the parse-pdf endpoint: a micro state machine with
an in-detail-section flag and a pending-transaction buffer. The
"Subtotaal" marker flushes the pending transaction and stops; a new
transaction line flushes the previous pending one; end of input flushes
the final pending one. -/
def parseLines (year : String) : List String → Bool → Option PdfTxn → List PdfTxn
  | [], _, pending => pending.toList
  | line :: rest, inDetailSection, pending =>
    let trimmedLine := jsTrim line
    if containsSub trimmedLine "Kaartnummer" && containsSub trimmedLine "XXXX" then
      parseLines year rest true pending
    else if containsSub trimmedLine "Transacties van" ||
        (containsSub trimmedLine "Datum" && containsSub trimmedLine "transactie") then
      parseLines year rest inDetailSection pending
    else if containsSub trimmedLine "Subtotaal" then
      pending.toList
    else if !inDetailSection then
      parseLines year rest inDetailSection pending
    else
      match amountLineMatch trimmedLine, pending with
      | some amountStr, some pt =>
        { pt with amount := jsParseFloat (mcAmountClean amountStr) } ::
          parseLines year rest inDetailSection none
      | _, _ =>
        match txnLineMatch trimmedLine with
        | some (day, month, descRest) =>
          let cleanDescription := jsTrim descRest
          let newTxn : PdfTxn :=
            { date := day ++ "/" ++ month ++ "/" ++ year
              amount := some 0
              description := cleanDescription
              counterparty := extractMastercardCounterparty cleanDescription
              type := "Mastercard"
              source := "mastercard_pdf"
              category := categorizeTransaction cleanDescription (-1) }
          match pending with
          | some pt => pt :: parseLines year rest inDetailSection (some newTxn)
          | none => parseLines year rest inDetailSection (some newTxn)
        | none => parseLines year rest inDetailSection pending

/-- Parsing of one PDF document's extracted text: take the statement
period's year (falling back to the current year, passed in as
`fallbackYear`), split into lines, run the line loop. -/
def parseStatement (rawText : String) (fallbackYear : String) : List PdfTxn :=
  let year := (findPeriodYear rawText).getD fallbackYear
  let lines := (splitOnChar '\n' rawText.data).map (fun l => (⟨l⟩ : String))
  parseLines year lines false none

/-- A stored transaction document, restricted to the fields of the
unique index `{ date: 1, amount: 1, originalDescription: 1 }` created in
`connectDB` (the spec's `rawDescription`), plus a representative payload
field; other payload fields play no role in deduplication. -/
structure Doc where
  date : String
  amount : Rat
  originalDescription : Option String
  description : String
deriving DecidableEq

/-- The deduplication key enforced by the store's unique compound index. -/
def dedupKey (d : Doc) : String × Rat × Option String :=
  (d.date, d.amount, d.originalDescription)

/-- Modelled from the spec: the storage collaborator's
insert-many-with-partial-success-on-uniqueness-violation (MongoDB
`insertMany` with `ordered: false` under the unique index of
`connectDB`; the store itself is not part of the repository). Documents
are attempted in order; one whose key is already present (including
keys inserted earlier in the same batch) is skipped; returns the new
store and the number of inserted documents. -/
def insertMany : List Doc → List Doc → List Doc × Nat
  | store, [] => (store, 0)
  | store, d :: ds =>
    if ∃ e ∈ store, dedupKey e = dedupKey d then insertMany store ds
    else
      let r := insertMany (store ++ [d]) ds
      (r.1, r.2 + 1)

/-- The response of `POST /api/transactions/import` together with the
resulting stored collection. -/
structure ImportResponse where
  store : List Doc
  insertedCount : Nat
  duplicateCount : Nat
deriving DecidableEq

/-- The import endpoint: insert the batch, report
`insertedCount` and `duplicateCount = docs.length - insertedCount`
(when no duplicate occurs the source reports `duplicateCount = 0`,
which coincides with `docs.length - insertedCount`). -/
def importTransactions (store : List Doc) (batch : List Doc) : ImportResponse :=
  { store := (insertMany store batch).1
    insertedCount := (insertMany store batch).2
    duplicateCount := batch.length - (insertMany store batch).2 }

/-- A stored transaction as consumed by the summary pipeline (only the
fields the pipeline reads). -/
structure STxn where
  amount : Rat
  isCreditCardPayment : Bool
deriving DecidableEq

/-- The summary response of `GET /api/transactions/summary`. -/
structure ApiSummary where
  totalIncome : Rat
  totalExpenses : Rat
  transactionCount : Nat
  avgTransaction : Rat
  netBalance : Rat
deriving DecidableEq

/-- The `$match` stage of the summary pipeline for a request without a
date range: when `excludeCreditCardPayments` is `'true'`, keep only
documents with `isCreditCardPayment ≠ true`. -/
def summaryMatch (excludeCreditCardPayments : Bool) (ts : List STxn) : List STxn :=
  if excludeCreditCardPayments then ts.filter (fun t => !t.isCreditCardPayment) else ts

/-- The summary endpoint: `$group` with `_id: null` computing
conditional sums, count and average; an empty match result produces the
zero default record; `netBalance` is added afterwards in JS as
`totalIncome - totalExpenses`. -/
def summaryEndpoint (excludeCreditCardPayments : Bool) (ts : List STxn) : ApiSummary :=
  let ms := summaryMatch excludeCreditCardPayments ts
  if ms.isEmpty then
    { totalIncome := 0, totalExpenses := 0, transactionCount := 0,
      avgTransaction := 0, netBalance := 0 - 0 }
  else
    let totalIncome := (ms.map (fun t => if 0 < t.amount then t.amount else 0)).sum
    let totalExpenses := (ms.map (fun t => if t.amount < 0 then |t.amount| else 0)).sum
    { totalIncome
      totalExpenses
      transactionCount := ms.length
      avgTransaction := (ms.map (fun t => t.amount)).sum / (ms.length : Rat)
      netBalance := totalIncome - totalExpenses }

end Server

/-! ## Lemmas about the deduplicating importer -/

theorem insertMany_count_le (ds : List Server.Doc) :
    ∀ store : List Server.Doc, (Server.insertMany store ds).2 ≤ ds.length := by
  induction ds with
  | nil => intro store; simp [Server.insertMany]
  | cons d ds ih =>
    intro store
    simp only [Server.insertMany, List.length_cons]
    split
    · exact le_trans (ih store) (Nat.le_succ _)
    · exact Nat.succ_le_succ (ih (store ++ [d]))

theorem mem_insertMany_store (ds : List Server.Doc) :
    ∀ store : List Server.Doc, ∀ e ∈ store, e ∈ (Server.insertMany store ds).1 := by
  induction ds with
  | nil => intro store e he; simpa [Server.insertMany] using he
  | cons d ds ih =>
    intro store e he
    simp only [Server.insertMany]
    split
    · exact ih store e he
    · exact ih (store ++ [d]) e (List.mem_append_left _ he)

theorem insertMany_key_present (ds : List Server.Doc) :
    ∀ store : List Server.Doc, ∀ d ∈ ds,
      ∃ e ∈ (Server.insertMany store ds).1, Server.dedupKey e = Server.dedupKey d := by
  induction ds with
  | nil => intro store d hd; cases hd
  | cons d0 ds ih =>
    intro store d hd
    rcases List.mem_cons.mp hd with rfl | hd'
    · simp only [Server.insertMany]
      split
      · rename_i hex
        obtain ⟨e, he, hk⟩ := hex
        exact ⟨e, mem_insertMany_store ds store e he, hk⟩
      · exact ⟨d, mem_insertMany_store ds (store ++ [d]) d
          (List.mem_append_right _ (List.mem_singleton.mpr rfl)), rfl⟩
    · simp only [Server.insertMany]
      split
      · exact ih store d hd'
      · exact ih (store ++ [d0]) d hd'

theorem insertMany_all_dup (ds : List Server.Doc) :
    ∀ store : List Server.Doc,
      (∀ d ∈ ds, ∃ e ∈ store, Server.dedupKey e = Server.dedupKey d) →
      Server.insertMany store ds = (store, 0) := by
  induction ds with
  | nil => intro store _; rfl
  | cons d ds ih =>
    intro store h
    have hd : ∃ e ∈ store, Server.dedupKey e = Server.dedupKey d :=
      h d (List.mem_cons_self d ds)
    simp only [Server.insertMany, if_pos hd]
    exact ih store (fun d' hd' => h d' (List.mem_cons_of_mem d hd'))

theorem insertMany_keys_distinct (ds : List Server.Doc) :
    ∀ store : List Server.Doc,
      store.Pairwise (fun a b => Server.dedupKey a ≠ Server.dedupKey b) →
      (Server.insertMany store ds).1.Pairwise
        (fun a b => Server.dedupKey a ≠ Server.dedupKey b) := by
  induction ds with
  | nil => intro store h; simpa [Server.insertMany] using h
  | cons d ds ih =>
    intro store h
    simp only [Server.insertMany]
    split
    · exact ih store h
    · rename_i hnex
      refine ih (store ++ [d]) ?_
      refine List.pairwise_append.mpr ⟨h, List.pairwise_singleton _ _, ?_⟩
      intro a ha b hb
      rcases List.mem_singleton.mp hb with rfl
      intro hk
      exact hnex ⟨a, ha, hk⟩

/-! ## C1: idempotent re-import -/

/-- C1: importing a batch and then re-importing the identical batch
yields `insertedCount = 0` and `duplicateCount = N` on the second call,
leaves the stored collection unchanged, and on every call
`insertedCount + duplicateCount` equals the length of the input batch. -/
theorem import_reimport_idempotent (store batch : List Server.Doc) :
    (Server.importTransactions (Server.importTransactions store batch).store
        batch).insertedCount = 0 ∧
    (Server.importTransactions (Server.importTransactions store batch).store
        batch).duplicateCount = batch.length ∧
    (Server.importTransactions (Server.importTransactions store batch).store
        batch).store = (Server.importTransactions store batch).store ∧
    (Server.importTransactions store batch).insertedCount +
      (Server.importTransactions store batch).duplicateCount = batch.length ∧
    (Server.importTransactions (Server.importTransactions store batch).store
        batch).insertedCount +
      (Server.importTransactions (Server.importTransactions store batch).store
        batch).duplicateCount = batch.length := by
  have h2 : Server.insertMany (Server.insertMany store batch).1 batch
      = ((Server.insertMany store batch).1, 0) :=
    insertMany_all_dup batch _ (fun d hd => insertMany_key_present batch store d hd)
  have hle := insertMany_count_le batch store
  refine ⟨?_, ?_, ?_, ?_, ?_⟩
  · simp only [Server.importTransactions, h2]
  · simp only [Server.importTransactions, h2, Nat.sub_zero]
  · simp only [Server.importTransactions, h2]
  · simp only [Server.importTransactions]
    exact Nat.add_sub_cancel' hle
  · simp only [Server.importTransactions, h2, Nat.sub_zero, Nat.zero_add]

/-! ## C2: the deduplication key -/

/-- C2: under the store's unique compound index, keys stay pairwise
distinct across imports; importing the same source row twice never
produces two stored records; and two rows differing only in `amount`
(or only in `date`) are both inserted. -/
theorem dedup_key_behavior (store : List Server.Doc) (t : Server.Doc) (a' : Rat) (d' : String)
    (ha : a' ≠ t.amount) (hd : d' ≠ t.date)
    (hs : store.Pairwise fun a b => Server.dedupKey a ≠ Server.dedupKey b) :
    ((Server.importTransactions store [t]).store.Pairwise
      fun a b => Server.dedupKey a ≠ Server.dedupKey b) ∧
    (Server.importTransactions (Server.importTransactions store [t]).store
        [t]).insertedCount = 0 ∧
    (Server.importTransactions (Server.importTransactions store [t]).store
        [t]).store = (Server.importTransactions store [t]).store ∧
    (Server.importTransactions [] [t, { t with amount := a' }]).insertedCount = 2 ∧
    (Server.importTransactions [] [t, { t with date := d' }]).insertedCount = 2 := by
  have h2 : Server.insertMany (Server.insertMany store [t]).1 [t]
      = ((Server.insertMany store [t]).1, 0) :=
    insertMany_all_dup [t] _ (fun d hd => insertMany_key_present [t] store d hd)
  have ha' : ¬ t.amount = a' := fun h => ha h.symm
  have hd' : ¬ t.date = d' := fun h => hd h.symm
  refine ⟨?_, ?_, ?_, ?_, ?_⟩
  · simpa only [Server.importTransactions] using insertMany_keys_distinct [t] store hs
  · simp only [Server.importTransactions, h2]
  · simp only [Server.importTransactions, h2]
  · simp [Server.importTransactions, Server.insertMany, Server.dedupKey, Prod.ext_iff, ha']
  · simp [Server.importTransactions, Server.insertMany, Server.dedupKey, Prod.ext_iff, hd']

/-- A concrete stored document used by the C2 witness. -/
def witDoc : Server.Doc :=
  { date := "2024-01-15", amount := -45, originalDescription := some "raw",
    description := "test transaction" }

/-- Witness for C2 at a concrete store, document, amount and date. -/
theorem dedup_key_behavior_witness :
    ((10 : Rat) ≠ witDoc.amount) ∧ ("2024-01-16" ≠ witDoc.date) ∧
    (([] : List Server.Doc).Pairwise fun a b => Server.dedupKey a ≠ Server.dedupKey b) ∧
    (((Server.importTransactions [] [witDoc]).store.Pairwise
        fun a b => Server.dedupKey a ≠ Server.dedupKey b) ∧
      (Server.importTransactions (Server.importTransactions [] [witDoc]).store
          [witDoc]).insertedCount = 0 ∧
      (Server.importTransactions (Server.importTransactions [] [witDoc]).store
          [witDoc]).store = (Server.importTransactions [] [witDoc]).store ∧
      (Server.importTransactions [] [witDoc, { witDoc with amount := 10 }]).insertedCount = 2 ∧
      (Server.importTransactions [] [witDoc, { witDoc with date := "2024-01-16" }]).insertedCount
        = 2) :=
  ⟨by norm_num [witDoc], by decide, List.Pairwise.nil,
    dedup_key_behavior [] witDoc 10 "2024-01-16" (by norm_num [witDoc]) (by decide)
      List.Pairwise.nil⟩

/-! ## C3: summary identities and credit-card exclusion -/

/-- C3: in the summary endpoint and the front-end summary,
`netBalance = totalIncome - totalExpenses` exactly, both totals are
nonnegative, and with exclusion enabled a flagged credit-card row is
omitted from the whole computation. -/
theorem summary_identities (excl : Bool) (ts : List Server.STxn) (t : Server.STxn)
    (uts : List App.CsvTxn) (u : App.CsvTxn) :
    (Server.summaryEndpoint excl ts).netBalance =
      (Server.summaryEndpoint excl ts).totalIncome -
        (Server.summaryEndpoint excl ts).totalExpenses ∧
    0 ≤ (Server.summaryEndpoint excl ts).totalIncome ∧
    0 ≤ (Server.summaryEndpoint excl ts).totalExpenses ∧
    Server.summaryEndpoint true ({ t with isCreditCardPayment := true } :: ts) =
      Server.summaryEndpoint true ts ∧
    (App.calculateSummary uts).net =
      (App.calculateSummary uts).income - (App.calculateSummary uts).expenses ∧
    0 ≤ (App.calculateSummary uts).income ∧
    0 ≤ (App.calculateSummary uts).expenses ∧
    App.calculateSummary ({ u with isCreditCardPayment := true } :: uts) =
      App.calculateSummary uts := by
  refine ⟨?_, ?_, ?_, ?_, ?_, ?_, ?_, ?_⟩
  · simp only [Server.summaryEndpoint]
    split
    · simp
    · simp
  · simp only [Server.summaryEndpoint]
    split
    · simp
    · refine List.sum_nonneg ?_
      intro x hx
      obtain ⟨y, _, rfl⟩ := List.mem_map.mp hx
      split
      · exact le_of_lt (by assumption)
      · exact le_refl 0
  · simp only [Server.summaryEndpoint]
    split
    · simp
    · refine List.sum_nonneg ?_
      intro x hx
      obtain ⟨y, _, rfl⟩ := List.mem_map.mp hx
      split
      · exact abs_nonneg _
      · exact le_refl 0
  · simp [Server.summaryEndpoint, Server.summaryMatch]
  · simp only [App.calculateSummary]
  · simp only [App.calculateSummary]
    refine List.sum_nonneg ?_
    intro x hx
    obtain ⟨y, hy, rfl⟩ := List.mem_map.mp hx
    exact le_of_lt (of_decide_eq_true (List.mem_filter.mp hy).2)
  · simp only [App.calculateSummary]
    exact abs_nonneg _
  · simp [App.calculateSummary]

/-! ## C4: classifier income override and fixed taxonomy -/

/-- The fixed category taxonomy of the data model. -/
def categoryTaxonomy : List String :=
  ["Income", "Groceries", "Dining", "Transportation", "Housing", "Utilities",
   "Shopping", "Entertainment", "Health & Fitness", "Credit Card Payment",
   "Subscriptions", "Travel", "Other"]

theorem app_categorize_mem (d : String) (a : Rat) :
    App.categorizeTransaction d a ∈ categoryTaxonomy := by
  simp only [App.categorizeTransaction]
  repeat' split
  all_goals decide

theorem server_categorize_mem (d : String) (a : Rat) :
    Server.categorizeTransaction d a ∈ categoryTaxonomy := by
  simp only [Server.categorizeTransaction]
  repeat' split
  all_goals decide

/-- C4: a positive amount classifies as "Income" regardless of the
description (in both classifiers); every classification is one of the
fixed taxonomy values; unmatched content defaults to "Other". -/
theorem classifier_income_and_taxonomy (d : String) (a : Rat) (h : 0 < a) :
    App.categorizeTransaction d a = "Income" ∧
    Server.categorizeTransaction d a = "Income" ∧
    (∀ (d2 : String) (a2 : Rat),
      App.categorizeTransaction d2 a2 ∈ categoryTaxonomy ∧
      Server.categorizeTransaction d2 a2 ∈ categoryTaxonomy) ∧
    App.categorizeTransaction "unmatched content" (-3) = "Other" ∧
    Server.categorizeTransaction "unmatched content" (-3) = "Other" := by
  refine ⟨?_, ?_, fun d2 a2 => ⟨app_categorize_mem d2 a2, server_categorize_mem d2 a2⟩,
    by decide, by decide⟩
  · simp only [App.categorizeTransaction]
    rw [if_pos h]
  · simp only [Server.categorizeTransaction]
    rw [if_pos h]

/-- Witness for C4 at a keyword-laden description and positive amount. -/
theorem classifier_income_and_taxonomy_witness :
    (0 < (1 : Rat)) ∧
    (App.categorizeTransaction "NETFLIX SUBSCRIPTION" 1 = "Income" ∧
     Server.categorizeTransaction "NETFLIX SUBSCRIPTION" 1 = "Income" ∧
     (∀ (d2 : String) (a2 : Rat),
       App.categorizeTransaction d2 a2 ∈ categoryTaxonomy ∧
       Server.categorizeTransaction d2 a2 ∈ categoryTaxonomy) ∧
     App.categorizeTransaction "unmatched content" (-3) = "Other" ∧
     Server.categorizeTransaction "unmatched content" (-3) = "Other") :=
  ⟨by norm_num, classifier_income_and_taxonomy "NETFLIX SUBSCRIPTION" 1 (by norm_num)⟩

/-! ## C5: credit-card payment detector -/

theorem matchesMastercard_empty : matchesMastercard "" = false := rfl

/-- C5: the detector returns true exactly when the type equals the
credit-card bill-payment label or the description matches
`/^MASTERCARD\s+\d+/i`; during row materialization the flag is computed
from the pre-counterparty-prefix description (`description || details`)
and the type, and a true flag forces the category to
"Credit Card Payment", bypassing the classifier. -/
theorem credit_card_detector_spec (d ty : String) (row : App.RawRow) :
    (App.isCreditCardPayment d ty = true ↔
      ty = "Kredietkaartbetaling" ∨ matchesMastercard d = true) ∧
    (App.confirmRow row).isCreditCardPayment =
      App.isCreditCardPayment
        (if row.description.getD "" = "" then row.details.getD ""
         else row.description.getD "")
        (row.type.getD "") ∧
    ((App.confirmRow row).isCreditCardPayment = false ∨
      (App.confirmRow row).category = "Credit Card Payment") := by
  refine ⟨?_, rfl, ?_⟩
  · by_cases hty : ty = "Kredietkaartbetaling"
    · simp [App.isCreditCardPayment, hty]
    · by_cases hd : d = ""
      · subst hd
        simp [App.isCreditCardPayment, hty, matchesMastercard_empty]
      · simp [App.isCreditCardPayment, hty, hd]
  · cases hccp : App.isCreditCardPayment
        (if row.description.getD "" = "" then row.details.getD ""
         else row.description.getD "")
        (row.type.getD "") with
    | false => left; exact hccp
    | true => right; simp [App.confirmRow, hccp]

/-! ## C6: counterparty extractor on the fixed example inputs -/

/-- Counterexample to C6 as stated: `"75MC00I H M Online BE"` does not
yield `"H&M"` (the code-plus-name rule rewrites only the `H M` prefix,
keeping the trailing text), and `"Payment Description"` does not yield
null (the word "Payment" is seven alphanumerics, so the generic
code-plus-name rule fires before the explicit placeholder check). -/
theorem extractor_examples_cex :
    Migrate.extractCounterparty "75MC00I H M Online BE" "Overschrijving" ≠ some "H&M" ∧
    Migrate.extractCounterparty "Payment Description" "Overschrijving" ≠ none := by
  decide

/-- C6 (amended): on the fixed example inputs, both extractors are
deterministic with `"75MC00I H M Online BE"` yielding `"H&M Online"`,
`"Jaxx: 72288235"` yielding `"Jaxx"`, `"MASTERCARD 1234567890"` yielding
`"Mastercard Payment"`, and `"Payment Description"` yielding
`"Description"`; unmatched input returns null (modelled by the `Option`
result; the functions are total by construction). -/
theorem extractor_examples (ty : String) :
    Migrate.extractCounterparty "75MC00I H M Online BE" ty = some "H&M Online" ∧
    Migrate.extractCounterparty "Jaxx: 72288235" ty = some "Jaxx" ∧
    Migrate.extractCounterparty "MASTERCARD 1234567890" ty = some "Mastercard Payment" ∧
    Migrate.extractCounterparty "Payment Description" ty = some "Description" ∧
    App.extractCounterparty "75MC00I H M Online BE" "" = some "H&M Online" ∧
    App.extractCounterparty "Jaxx: 72288235" "" = some "Jaxx" ∧
    App.extractCounterparty "MASTERCARD 1234567890" "" = some "Mastercard Payment" ∧
    App.extractCounterparty "Payment Description" "" = some "Description" :=
  ⟨rfl, rfl, rfl, rfl, rfl, rfl, rfl, rfl⟩


/-! ## C7: PDF round trip -/

/-- The synthetic statement text of the round-trip property: a masked
card-number header, one transaction line, its amount line, and the
"Subtotaal" terminator. -/
def pdfSampleText : String :=
  "Kaartnummer 1234 XXXX XXXX 9999\n06/0108/01PAYPAL IBOOD 123456 NL\n€ -54,97\nSubtotaal"

/-- C7: parsing the synthetic text yields exactly one transaction with
amount `-54.97`, counterparty `"iBood"` and source `"mastercard_pdf"`
(for any fallback year: the text has no period header, so the date
falls back to it, and the claim fixes no date). -/
theorem pdf_round_trip (fallbackYear : String) :
    Server.parseStatement pdfSampleText fallbackYear =
      [{ date := "06/01/" ++ fallbackYear
         amount := some (mkRat (-5497) 100)
         description := "PAYPAL IBOOD 123456 NL"
         counterparty := "iBood"
         type := "Mastercard"
         source := "mastercard_pdf"
         category := "Shopping" }] := rfl

/-! ## C8: the row-discard condition -/

/-- A raw CSV row whose amount cell does not parse to a number. -/
def unparsedAmountRow : App.RawRow :=
  { date := some "2024-01-15", amount := App.Cell.str "abc",
    description := some "x", details := none, counterparty := none,
    type := none, status := none }

/-- Counterexample to C8 as stated: this row's amount fails to parse to
a finite number (`rawAmountOpt` is NaN), yet the row is not discarded —
it is materialized with amount 0 and kept in the batch. -/
theorem row_filter_cex :
    App.rawAmountOpt unparsedAmountRow.amount = none ∧
    (App.confirmMapping [unparsedAmountRow]).length = 1 ∧
    (App.confirmRow unparsedAmountRow).amount = 0 := by
  decide

theorem jsTrim_empty : jsTrim "" = "" := rfl

theorem containsSub_empty_geweigerd : containsSub "" "geweigerd" = false := rfl

theorem toLowerStr_empty : toLowerStr "" = "" := rfl

/-- C8 (amended): a materialized row is discarded if and only if its
trimmed date is empty or its status contains the case-insensitive
substring "geweigerd"; an amount that fails to parse never causes a
discard, because materialization coerces it to 0 before the filter. -/
theorem row_filter_condition (t : App.CsvTxn) (rows : List App.RawRow) :
    (App.keepRow t =
      (jsTrim t.date != "" && !containsSub (toLowerStr t.status) "geweigerd")) ∧
    App.confirmMapping rows = (rows.map App.confirmRow).filter App.keepRow := by
  refine ⟨?_, rfl⟩
  simp only [App.keepRow, App.ratIsNaN, Bool.not_false, Bool.and_true]
  by_cases hdate : t.date = ""
  · simp [hdate, jsTrim_empty]
  · by_cases htr : jsTrim t.date = ""
    · simp [hdate, htr]
    · by_cases hst : t.status = ""
      · simp [hdate, htr, hst, bne_iff_ne, toLowerStr_empty, containsSub_empty_geweigerd]
      · simp [hdate, htr, hst, bne_iff_ne]

/-! ## C9: materialized amounts are always finite numbers -/

/-- C9: when the source amount value does not parse to a number, the
materialized amount is coerced to 0 (never left NaN); every materialized
record's amount is the coerced value; the filter's amount-validity test
can never fail on a materialized row, and changing a row's amount never
changes whether it is kept. -/
theorem materialized_amount_total (c : App.Cell) (h : App.rawAmountOpt c = none) :
    App.materializeAmount c = 0 ∧
    (∀ row : App.RawRow, (App.confirmRow row).amount = App.materializeAmount row.amount) ∧
    (∀ t : App.CsvTxn, App.ratIsNaN t.amount = false) ∧
    (∀ (t : App.CsvTxn) (q : Rat), App.keepRow { t with amount := q } = App.keepRow t) := by
  refine ⟨?_, fun row => rfl, fun t => rfl, fun t q => rfl⟩
  simp [App.materializeAmount, h]

/-- Witness for C9 at a textual amount cell that does not parse. -/
theorem materialized_amount_total_witness :
    App.rawAmountOpt (App.Cell.str "abc") = none ∧
    (App.materializeAmount (App.Cell.str "abc") = 0 ∧
     (∀ row : App.RawRow, (App.confirmRow row).amount = App.materializeAmount row.amount) ∧
     (∀ t : App.CsvTxn, App.ratIsNaN t.amount = false) ∧
     (∀ (t : App.CsvTxn) (q : Rat), App.keepRow { t with amount := q } = App.keepRow t)) :=
  ⟨by decide, materialized_amount_total (App.Cell.str "abc") (by decide)⟩

/-! ## C10: zero-amount transactions from the PDF parser -/

/-- C10: each of the three flush paths that can fire before any amount
line arrives — the "Subtotaal" marker, a new transaction line, and end
of input — emits the pending transaction with its initialized amount of
exactly 0 instead of dropping it. -/
theorem pdf_zero_amount_flush :
    (Server.parseStatement
        "Kaartnummer 1 XXXX\n06/0108/01SOMETHING SHOP\nSubtotaal" "2025").map
      (fun t => t.amount) = [some 0] ∧
    (Server.parseStatement
        "Kaartnummer 1 XXXX\n06/0108/01SOMETHING SHOP" "2025").map
      (fun t => t.amount) = [some 0] ∧
    (Server.parseStatement
        "Kaartnummer 1 XXXX\n06/0108/01SOMETHING SHOP\n07/0109/01ANOTHER SHOP\n€ 5,00"
        "2025").map
      (fun t => t.amount) = [some 0, some 5] := by
  decide
